import Mathlib

/-!
Shallow embedding of `src/backend/main.py` (Sitee AI backend).

The backing store (the `payments.json` file) is modelled as a `List User`;
each handler takes the loaded store, the request, and the outcomes of the
external calls it may perform (inference provider, deployment API) as an
explicit oracle, and returns the response (or HTTP error), the final
persisted store, and the list of external calls it actually made.
Python's in-place mutation of the first matching object found by
`next(...)` is modelled by a first-match functional update.
-/

namespace Sitee

/-- Project record, mirroring the `Project` pydantic model. -/
structure Project where
  name : String
  html : String
  timestamp : Int
  published_url : Option String := none
  react : Option String := none
  suggestions : Option String := none
deriving Repr, DecidableEq

/-- User record, mirroring the `User` pydantic model. -/
structure User where
  id : String
  credits : Int
  projects : List Project := []
deriving Repr, DecidableEq

/-- The reserved chat-history project name (`CHAT_HISTORY_PROJECT_NAME`). -/
def CHAT_HISTORY_PROJECT_NAME : String := "__chat_history__"

/-- An `HTTPException(status_code, detail)` raised by a handler. -/
structure HErr where
  status : Nat
  detail : String
deriving Repr, DecidableEq

/-- Body of `POST /generate/` (`GenerationRequest`). -/
structure GenerationRequest where
  prompt : String
  user_id : String
  is_chat_mode : Bool := false
  is_punjabi_mode : Bool := false
  target_language : Option String := none
  image_data : Option String := none
deriving Repr, DecidableEq

/-- Body of publish requests (`HtmlContent`). -/
structure HtmlContent where
  html_content : String
deriving Repr, DecidableEq

/-- Body of `POST /suggest_improvements/` (`SuggestionRequest`). -/
structure SuggestionRequest where
  user_id : String
  html_content : String
  timestamp : Int
  force_regenerate : Bool := false
deriving Repr, DecidableEq

/-- Python truthiness of an `Optional[str]`: `None` and `""` are falsy. -/
def truthyOptStr : Option String → Bool
  | none => false
  | some s => !(s == "")

/-- Replace the first element satisfying `pred` by its image under `f`;
models Python's pattern of mutating the object found by
`next((x for x in xs if pred(x)), None)` in place.  -/
def updateFirst (pred : α → Bool) (f : α → α) : List α → List α
  | [] => []
  | x :: xs => if pred x then f x :: xs else x :: updateFirst pred f xs

/-- Whether `pat` is an initial segment of `s` (on character lists). -/
def listStarts : List Char → List Char → Bool
  | _, [] => true
  | [], _ :: _ => false
  | a :: s, b :: p => a == b && listStarts s p

/-- Index of the first occurrence of `pat` in `s`, as in Python `str.find`
(which returns `-1` when absent; we use `none`). -/
def occAux (pat : List Char) : List Char → Option Nat
  | [] => if listStarts [] pat then some 0 else none
  | c :: rest =>
    if listStarts (c :: rest) pat then some 0
    else (occAux pat rest).map (fun n => n + 1)

/-- Python `s.find(pat)` (as `Option Nat` instead of `-1`). -/
def pyFind (s pat : String) : Option Nat := occAux pat.data s.data

/-- The canonical document-start marker used by the default generation
branch (`html_start_tag` in `generate_code`). -/
def html_start_tag : String := "<!DOCTYPE html>"

/-- Lines 302-306 of `generate_code`: truncate the generated content to
start at the first occurrence of the document marker, if present. -/
def truncateAtDoctype (generated_content : String) : String :=
  match pyFind generated_content html_start_tag with
  | none => generated_content
  | some i => String.mk (generated_content.data.drop i)

/-- Python `s.removeprefix(p)`. -/
def dropPre (s p : String) : String :=
  if s.startsWith p then s.drop p.length else s

/-- Python `s.removesuffix(p)`. -/
def dropSuf (s p : String) : String :=
  if s.endsWith p then s.dropRight p.length else s

/-- Line 272: `raw.strip().removeprefix("```jsx").removesuffix("```").strip()`. -/
def stripJsxFences (raw : String) : String :=
  (dropSuf (dropPre raw.trim "```jsx") "```").trim

/-- An external call made by a handler against the inference provider or
the deployment API. -/
inductive ExtCall where
  | vision
  | text
  | deploy
deriving Repr, DecidableEq

/-- Result of one external chat-completion call: the returned message
content, or the exception message it raised. -/
abbrev ModelResult := Except String String

/-- The external-call outcomes available to one `/generate/` request:
the vision call (consumed only when image data is present) and the main
text-model call. -/
structure GenOracle where
  visionResult : ModelResult
  mainResult : ModelResult
deriving Repr

/-- JSON body of a successful `/generate/` response: either
`{"code": ..., "credits_remaining": ...}` (react branch) or
`{"html": ..., "credits_remaining": ...}` (chat and default branches). -/
inductive GenResponse where
  | codeRes (code : String) (credits_remaining : Int)
  | htmlRes (html : String) (credits_remaining : Int)
deriving Repr, DecidableEq

/-- Outcome of a handler invocation: the HTTP-level result, the finally
persisted store, and the external calls performed, in order. -/
structure Outcome (ρ : Type) where
  result : Except HErr ρ
  disk : List User
  calls : List ExtCall
deriving Repr

/-- JSON body of a successful `/suggest_improvements/` response. -/
structure SuggestResponse where
  suggestions : String
  credits_remaining : Int
  cached : Bool
deriving Repr, DecidableEq

/-- Line 108 of the source: the cached-suggestions guard
`if project and project.suggestions and not request.force_regenerate`,
returning the cached text when the guard passes. -/
def suggestCached? (project? : Option Project) (force_regenerate : Bool) :
    Option String :=
  match project? with
  | none => none
  | some project =>
    if truthyOptStr project.suggestions && !force_regenerate then
      project.suggestions
    else none

/-- Handler of `POST /suggest_improvements/` (lines 99-160). The single
possible external text-model call is supplied as `oracle`. -/
def suggest_improvements (oracle : ModelResult) (request : SuggestionRequest)
    (store : List User) : Outcome SuggestResponse :=
  match store.find? (fun u => u.id == request.user_id) with
  | none => ⟨.error ⟨404, "User not found"⟩, store, []⟩
  | some user =>
    let project? := user.projects.find? (fun p => p.timestamp == request.timestamp)
    match suggestCached? project? request.force_regenerate with
    | some cachedText =>
      ⟨.ok ⟨cachedText, user.credits, true⟩, store, []⟩
    | none =>
      if user.credits ≤ 0 then
        ⟨.error ⟨400, "Insufficient credits"⟩, store, []⟩
      else
        -- line 118: in-memory debit of the first matching user
        let usersDebited := updateFirst (fun u => u.id == request.user_id)
          (fun u => { u with credits := u.credits - 1 }) store
        match oracle with
        | .ok suggestions =>
          -- lines 145-148: cache on the project (when found), then persist
          let usersFinal :=
            if project?.isSome then
              updateFirst (fun u => u.id == request.user_id)
                (fun u => { u with projects :=
                  (updateFirst (fun p => p.timestamp == request.timestamp)
                    (fun p => { p with suggestions := some suggestions })
                    u.projects) }) usersDebited
            else usersDebited
          ⟨.ok ⟨suggestions, user.credits - 1, false⟩, usersFinal, [.text]⟩
        | .error e =>
          -- lines 156-158: refund the debit, persist, surface a 500
          let usersRefunded := updateFirst (fun u => u.id == request.user_id)
            (fun u => { u with credits := u.credits + 1 }) usersDebited
          ⟨.error ⟨500, "An error occurred while generating suggestions: " ++ e⟩,
            usersRefunded, [.text]⟩

/-- Server-side publishing configuration (`VERCEL_ACCESS_TOKEN`). -/
structure PublishConfig where
  hasVercelToken : Bool
deriving Repr, DecidableEq

/-- Result of the deployment API call: `data['url']` on success, or the
error message of the raised `RequestException`. -/
abbrev DeployResult := Except String String

/-- Handler of `POST /users/.../projects/.../publish` (lines 163-198). -/
def publish_site (config : PublishConfig) (oracle : DeployResult)
    (user_id : String) (timestamp : Int) (_content : HtmlContent)
    (store : List User) : Outcome String :=
  if !config.hasVercelToken then
    ⟨.error ⟨500, "Server is not configured for publishing. Missing VERCEL_ACCESS_TOKEN."⟩,
      store, []⟩
  else
    match store.find? (fun u => u.id == user_id) with
    | none => ⟨.error ⟨404, "User not found"⟩, store, []⟩
    | some user =>
      match user.projects.find? (fun p => p.timestamp == timestamp) with
      | none => ⟨.error ⟨404, "Project not found"⟩, store, []⟩
      | some _project =>
        match oracle with
        | .ok url =>
          let deployment_url := "https://" ++ url
          let users1 := updateFirst (fun u => u.id == user_id)
            (fun u => { u with projects :=
              (updateFirst (fun p => p.timestamp == timestamp)
                (fun p => { p with published_url := some deployment_url })
                u.projects) }) store
          ⟨.ok deployment_url, users1, [.deploy]⟩
        | .error e =>
          ⟨.error ⟨502, "Publishing service error: " ++ e⟩, store, [.deploy]⟩

/-- Handler of `POST /generate/` (lines 200-318). External calls (the
optional vision-analysis call and the main text-model call) are supplied
as `oracle`. -/
def generate_code (oracle : GenOracle) (request : GenerationRequest)
    (store : List User) : Outcome GenResponse :=
  match store.find? (fun u => u.id == request.user_id) with
  | none => ⟨.error ⟨404, "User not found"⟩, store, []⟩
  | some user =>
    if user.credits ≤ 0 then
      ⟨.error ⟨400, "Insufficient credits"⟩, store, []⟩
    else
      -- lines 209-211: `if not request.target_language:` debit and persist
      let billable := !truthyOptStr request.target_language
      let users1 :=
        if billable then
          updateFirst (fun u => u.id == request.user_id)
            (fun u => { u with credits := u.credits - 1 }) store
        else store
      let credits1 := if billable then user.credits - 1 else user.credits
      -- lines 313-318: the except branch (refund the debit when billable)
      let fail : String → List ExtCall → Outcome GenResponse := fun e calls =>
        if billable then
          let usersRefunded := updateFirst (fun u => u.id == request.user_id)
            (fun u => { u with credits := u.credits + 1 }) users1
          ⟨.error ⟨500, "An error occurred during generation: " ++ e⟩,
            usersRefunded, calls⟩
        else
          ⟨.error ⟨500, "An error occurred during generation: " ++ e⟩,
            users1, calls⟩
      -- lines 263-311: react / chat / default branches
      let mainBranches : String → List ExtCall → Outcome GenResponse :=
        fun _generation_prompt calls =>
          if request.target_language == some "react" then
            match oracle.mainResult with
            | .error e => fail e (calls ++ [.text])
            | .ok react_code_raw =>
              ⟨.ok (.codeRes (stripJsxFences react_code_raw) credits1),
                users1, calls ++ [.text]⟩
          else if request.is_chat_mode then
            match oracle.mainResult with
            | .error e => fail e (calls ++ [.text])
            | .ok chat_response =>
              ⟨.ok (.htmlRes chat_response credits1), users1, calls ++ [.text]⟩
          else
            match oracle.mainResult with
            | .error e => fail e (calls ++ [.text])
            | .ok generated_content =>
              ⟨.ok (.htmlRes (truncateAtDoctype generated_content) credits1),
                users1, calls ++ [.text]⟩
      -- lines 217-256: optional image-to-text analysis augmenting the prompt
      match request.image_data with
      | none => mainBranches request.prompt []
      | some _img =>
        match oracle.visionResult with
        | .error e => fail e [.vision]
        | .ok vision_analysis_result =>
          let generation_prompt :=
            "Based on the following detailed analysis of an existing website, create a new one. Original user request: '"
            ++ request.prompt ++ "'.\n\n--- WEBSITE ANALYSIS ---\n"
            ++ vision_analysis_result
          mainBranches generation_prompt [.vision]

/-- Handler of `POST /users/.../projects` (lines 330-347): upsert for the
reserved chat-history name, append otherwise. -/
def save_project (user_id : String) (project : Project) (store : List User) :
    Outcome Project :=
  match store.find? (fun u => u.id == user_id) with
  | none => ⟨.error ⟨404, "User not found"⟩, store, []⟩
  | some user =>
    let appendCase : Outcome Project :=
      let users1 := updateFirst (fun u => u.id == user_id)
        (fun u => { u with projects := u.projects ++ [project] }) store
      ⟨.ok project, users1, []⟩
    if project.name == CHAT_HISTORY_PROJECT_NAME then
      match user.projects.find? (fun p => p.name == CHAT_HISTORY_PROJECT_NAME) with
      | some existing_chat =>
        let users1 := updateFirst (fun u => u.id == user_id)
          (fun u => { u with projects :=
            (updateFirst (fun p => p.name == CHAT_HISTORY_PROJECT_NAME)
              (fun p => { p with html := project.html, timestamp := project.timestamp })
              u.projects) }) store
        ⟨.ok { existing_chat with html := project.html, timestamp := project.timestamp },
          users1, []⟩
      | none => appendCase
    else appendCase

/-- Lines 359-363 of `update_project_code`: copy every field of the request
body except the timestamp onto the matched project. -/
def overwriteFrom (updated_project p : Project) : Project :=
  { p with html := updated_project.html,
           name := updated_project.name,
           published_url := updated_project.published_url,
           react := updated_project.react,
           suggestions := updated_project.suggestions }

/-- Handler of `PUT /users/.../projects/...` (lines 349-366). -/
def update_project_code (user_id : String) (timestamp : Int)
    (updated_project : Project) (store : List User) : Outcome Project :=
  match store.find? (fun u => u.id == user_id) with
  | none => ⟨.error ⟨404, "User not found"⟩, store, []⟩
  | some user =>
    match user.projects.find? (fun p => p.timestamp == timestamp) with
    | none => ⟨.error ⟨404, "Project not found"⟩, store, []⟩
    | some project_to_update =>
      let users1 := updateFirst (fun u => u.id == user_id)
        (fun u => { u with projects :=
          (updateFirst (fun p => p.timestamp == timestamp)
            (overwriteFrom updated_project) u.projects) })
        store
      ⟨.ok (overwriteFrom updated_project project_to_update), users1, []⟩

/-- Handler of `DELETE /users/.../projects/...` (lines 368-379). -/
def delete_project (user_id : String) (timestamp : Int) (store : List User) :
    Outcome Unit :=
  match store.find? (fun u => u.id == user_id) with
  | none => ⟨.error ⟨404, "User not found"⟩, store, []⟩
  | some user =>
    let kept := user.projects.filter (fun p => !(p.timestamp == timestamp))
    if kept.length == user.projects.length then
      ⟨.error ⟨404, "Project not found to delete"⟩, store, []⟩
    else
      let users1 := updateFirst (fun u => u.id == user_id)
        (fun u => { u with projects :=
          u.projects.filter (fun p => !(p.timestamp == timestamp)) }) store
      ⟨.ok (), users1, []⟩

/-- Handler of `DELETE /users/.../projects` (lines 381-389): bulk delete
keeping only the chat-history project. -/
def delete_all_projects (user_id : String) (store : List User) :
    Outcome String :=
  match store.find? (fun u => u.id == user_id) with
  | none => ⟨.error ⟨404, "User not found"⟩, store, []⟩
  | some _user =>
    let users1 := updateFirst (fun u => u.id == user_id)
      (fun u => { u with projects :=
        u.projects.filter (fun p => p.name == CHAT_HISTORY_PROJECT_NAME) }) store
    ⟨.ok "All projects for user have been deleted.", users1, []⟩

/-- Handler of `POST /create-user` (lines 391-403); the request body dict
is modelled by its two relevant optional entries. -/
def create_user (user_data_id : Option String) (user_data_credits : Option Int)
    (store : List User) : Outcome User :=
  if !truthyOptStr user_data_id then
    ⟨.error ⟨400, "User ID is required"⟩, store, []⟩
  else
    let user_id := user_data_id.getD ""
    if store.any (fun u => u.id == user_id) then
      ⟨.error ⟨400, "User with this ID already exists"⟩, store, []⟩
    else
      let new_user : User := { id := user_id, credits := user_data_credits.getD 10, projects := [] }
      ⟨.ok new_user, store ++ [new_user], []⟩

/-! ## The file layer (`read_users_db` / `write_users_db`, lines 83-95) -/

/-- A JSON value, as produced by `json.load`. Numbers are modelled as
integers; fractional JSON numbers are outside this model's value space. -/
inductive JVal where
  | jnull
  | jbool (b : Bool)
  | jnum (n : Int)
  | jstr (s : String)
  | jarr (items : List JVal)
  | jobj (fields : List (String × JVal))
deriving Repr

/-- State of the backing `payments.json` file. -/
inductive FileState where
  | missing                 -- `os.path.exists` is false
  | unreadable              -- opening or reading raises `IOError`
  | invalidJson             -- content on which `json.load` raises `JSONDecodeError`
  | jsonContent (v : JVal)  -- content parsing to the JSON value `v`
deriving Repr

/-- Result of a load: the collection, or an uncaught exception
(`read_users_db` catches only `JSONDecodeError` and `IOError`; pydantic
validation errors and `TypeError` from `User(**x)` propagate). -/
inductive LoadResult where
  | ok (users : List User)
  | raised
deriving Repr, DecidableEq

/-- Field lookup in a JSON object. -/
def jLookup (fields : List (String × JVal)) (key : String) : Option JVal :=
  (fields.find? (fun kv => kv.fst == key)).map (fun kv => kv.snd)

/-- Pydantic validation of a required `str` field value. -/
def decodeStr : JVal → Option String
  | .jstr s => some s
  | _ => none

/-- Pydantic lax validation of a required `int` field value: JSON integers
are accepted, and numeric strings are coerced (`"10"` → 10, surrounding
whitespace tolerated); booleans and other values are rejected. -/
def decodeInt : JVal → Option Int
  | .jnum n => some n
  | .jstr s => s.trim.toInt?
  | _ => none

/-- Pydantic validation of an `Optional[str]` field with default `None`:
absent and `null` give `None`; a string gives the string. -/
def decodeOptStr : Option JVal → Option (Option String)
  | none => some none
  | some .jnull => some none
  | some (.jstr s) => some (some s)
  | some _ => none

/-- Left-to-right decoding of a list, failing on the first invalid element
(as a Python list comprehension raising on the first bad item). -/
def decodeList (f : JVal → Option β) : List JVal → Option (List β)
  | [] => some []
  | v :: vs =>
    match f v, decodeList f vs with
    | some b, some bs => some (b :: bs)
    | _, _ => none

/-- Pydantic validation `Project(**data)`. -/
def decodeProject : JVal → Option Project
  | .jobj fields => do
    let name ← jLookup fields "name" >>= decodeStr
    let html ← jLookup fields "html" >>= decodeStr
    let timestamp ← jLookup fields "timestamp" >>= decodeInt
    let published_url ← decodeOptStr (jLookup fields "published_url")
    let react ← decodeOptStr (jLookup fields "react")
    let suggestions ← decodeOptStr (jLookup fields "suggestions")
    pure ⟨name, html, timestamp, published_url, react, suggestions⟩
  | _ => none

/-- Pydantic validation `User(**user_data)` (line 89). -/
def decodeUser : JVal → Option User
  | .jobj fields => do
    let id ← jLookup fields "id" >>= decodeStr
    let credits ← jLookup fields "credits" >>= decodeInt
    let projects ←
      match jLookup fields "projects" with
      | none => some []
      | some (.jarr items) => decodeList decodeProject items
      | some _ => none
    pure ⟨id, credits, projects⟩
  | _ => none

/-- Lines 83-91: `read_users_db`. A missing file, an `IOError`, or a
`JSONDecodeError` yield `[]`. Otherwise line 89 runs
`[User(**user_data) for user_data in data]`: a list validates each element
(raising on the first invalid one); a dict iterates its keys and a string
its characters, so the empty object and the empty string yield `[]` with
no exception, while their non-empty forms raise `TypeError` at
`User(**non_mapping)`; non-iterable values (numbers, booleans, null)
raise `TypeError` as well. Nothing catches these exceptions. -/
def read_users_db : FileState → LoadResult
  | .missing => .ok []
  | .unreadable => .ok []
  | .invalidJson => .ok []
  | .jsonContent v =>
    match v with
    | .jarr items =>
      match decodeList decodeUser items with
      | some users => .ok users
      | none => .raised
    | .jobj fields => if fields.isEmpty then .ok [] else .raised
    | .jstr s => if s.isEmpty then .ok [] else .raised
    | _ => .raised

/-- Serialization of an `Optional[str]` by `model_dump` + `json.dump`. -/
def encodeOptStr : Option String → JVal
  | none => .jnull
  | some s => .jstr s

/-- Serialization of a `Project` by `model_dump` + `json.dump`. -/
def encodeProject (p : Project) : JVal :=
  .jobj [("name", .jstr p.name), ("html", .jstr p.html),
         ("timestamp", .jnum p.timestamp),
         ("published_url", encodeOptStr p.published_url),
         ("react", encodeOptStr p.react),
         ("suggestions", encodeOptStr p.suggestions)]

/-- Serialization of a `User` by `model_dump` + `json.dump`. -/
def encodeUser (u : User) : JVal :=
  .jobj [("id", .jstr u.id), ("credits", .jnum u.credits),
         ("projects", .jarr (u.projects.map encodeProject))]

/-- Lines 93-95: the file content written by `write_users_db`. -/
def write_users_db (users : List User) : FileState :=
  .jsonContent (.jarr (users.map encodeUser))

/-! ## The chat-history name invariant -/

/-- Number of projects of `u` holding the reserved chat-history name. -/
def chatCount (u : User) : Nat :=
  (u.projects.filter (fun p => p.name == CHAT_HISTORY_PROJECT_NAME)).length

/-- The invariant: within each stored user, at most one project holds the
reserved chat-history name. -/
def chatUnique (users : List User) : Prop :=
  ∀ u ∈ users, chatCount u ≤ 1

instance (users : List User) : Decidable (chatUnique users) := by
  unfold chatUnique; infer_instance

/-- The stored user record with the given id, if any. -/
def storedUser (users : List User) (uid : String) : Option User :=
  users.find? (fun u => u.id == uid)

/-- The stored credit balance of the user with the given id, if any. -/
def storedCredits (users : List User) (uid : String) : Option Int :=
  (storedUser users uid).map (fun u => u.credits)

/-- The stored project of a user matched by timestamp (first match). -/
def storedProject (users : List User) (uid : String) (ts : Int) : Option Project :=
  (storedUser users uid).bind (fun u => u.projects.find? (fun p => p.timestamp == ts))

/-! ## Lemmas about `updateFirst` -/

theorem updateFirst_mem {pred : α → Bool} {f : α → α} {l : List α} {x : α}
    (hx : x ∈ updateFirst pred f l) : x ∈ l ∨ ∃ y ∈ l, x = f y := by
  induction l with
  | nil => simp [updateFirst] at hx
  | cons a t ih =>
    by_cases ha : pred a = true
    · simp only [updateFirst, ha, if_pos, List.mem_cons] at hx
      rcases hx with h1 | h1
      · exact Or.inr ⟨a, List.mem_cons_self a t, h1⟩
      · exact Or.inl (List.mem_cons_of_mem a h1)
    · simp only [updateFirst, ha, if_neg, Bool.false_eq_true, not_false_iff,
        List.mem_cons] at hx
      rcases hx with h1 | h1
      · exact Or.inl (h1 ▸ List.mem_cons_self a t)
      · rcases ih h1 with h2 | ⟨y, hy, h3⟩
        · exact Or.inl (List.mem_cons_of_mem a h2)
        · exact Or.inr ⟨y, List.mem_cons_of_mem a hy, h3⟩

theorem find?_updateFirst {pred : α → Bool} {f : α → α} {l : List α} {x : α}
    (h : l.find? pred = some x) (hf : pred (f x) = true) :
    (updateFirst pred f l).find? pred = some (f x) := by
  induction l with
  | nil => simp at h
  | cons a t ih =>
    by_cases ha : pred a = true
    · rw [List.find?_cons_of_pos _ ha] at h
      injection h with h
      subst h
      simp [updateFirst, ha, List.find?_cons_of_pos _ hf]
    · rw [List.find?_cons_of_neg _ ha] at h
      simp [updateFirst, ha, List.find?_cons_of_neg _ ha, ih h]

theorem find?_updateFirst_of_ne {pred q : α → Bool} {f : α → α} {l : List α}
    (hq : ∀ y, q (f y) = q y) (hne : ∀ y, q y = true → pred y = false) :
    (updateFirst pred f l).find? q = l.find? q := by
  induction l with
  | nil => rfl
  | cons a t ih =>
    by_cases ha : pred a = true
    · have hqa : q a = false := by
        cases hqa : q a with
        | false => rfl
        | true => rw [hne a hqa] at ha; exact absurd ha (by simp)
      have hqfa : q (f a) = false := by rw [hq a]; exact hqa
      simp [updateFirst, ha, List.find?_cons_of_neg, hqa, hqfa]
    · simp only [updateFirst, ha, if_neg, Bool.false_eq_true, not_false_iff]
      cases hqa : q a with
      | true => simp [List.find?_cons_of_pos _ hqa]
      | false => simp [List.find?_cons_of_neg, hqa, ih]

theorem filter_updateFirst_of_find? {q : α → Bool} {f : α → α} {l : List α} {e : α}
    (h : l.find? q = some e) (hf : q (f e) = true) :
    (updateFirst q f l).filter q = f e :: ((l.filter q).drop 1) := by
  induction l with
  | nil => simp at h
  | cons a t ih =>
    by_cases ha : q a = true
    · rw [List.find?_cons_of_pos _ ha] at h
      injection h with h
      subst h
      simp [updateFirst, ha, List.filter_cons, hf]
    · rw [List.find?_cons_of_neg _ ha] at h
      simp [updateFirst, ha, List.filter_cons, ih h]

theorem filter_length_updateFirst {pred q : α → Bool} {f : α → α}
    (hg : ∀ y, q (f y) = q y) (l : List α) :
    ((updateFirst pred f l).filter q).length = (l.filter q).length := by
  induction l with
  | nil => rfl
  | cons a t ih =>
    by_cases ha : pred a = true
    · simp only [updateFirst, ha, if_pos, List.filter_cons, hg a]
      cases hqa : q a <;> simp [hqa]
    · simp only [updateFirst, ha, if_neg, Bool.false_eq_true, not_false_iff,
        List.filter_cons]
      cases hqa : q a <;> simp [hqa, ih]

theorem filter_eq_singleton_of_find? {q : α → Bool} {l : List α} {e : α}
    (h : l.find? q = some e) (hlen : (l.filter q).length ≤ 1) :
    l.filter q = [e] := by
  induction l with
  | nil => simp at h
  | cons a t ih =>
    by_cases ha : q a = true
    · rw [List.find?_cons_of_pos _ ha] at h
      injection h with h
      subst h
      rw [List.filter_cons_of_pos ha] at hlen ⊢
      have ht : (t.filter q).length = 0 := by
        simp only [List.length_cons] at hlen
        omega
      rw [List.length_eq_zero.mp ht]
    · rw [List.find?_cons_of_neg _ ha] at h
      rw [List.filter_cons_of_neg (by simp [ha])] at hlen ⊢
      exact ih h hlen

theorem find?_append_of_none {q : α → Bool} {l₁ l₂ : List α}
    (h : l₁.find? q = none) : (l₁ ++ l₂).find? q = l₂.find? q := by
  induction l₁ with
  | nil => rfl
  | cons a t ih =>
    have hqa : q a = false := by
      cases hqa : q a with
      | false => rfl
      | true =>
        rw [List.find?_cons_of_pos _ hqa] at h
        exact absurd h (by simp)
    rw [List.find?_cons_of_neg _ (by simp [hqa])] at h
    rw [List.cons_append, List.find?_cons_of_neg _ (by simp [hqa])]
    exact ih h

theorem updateFirst_length (pred : α → Bool) (f : α → α) (l : List α) :
    (updateFirst pred f l).length = l.length := by
  induction l with
  | nil => rfl
  | cons a t ih => by_cases h : pred a = true <;> simp [updateFirst, h, ih]

theorem updateFirst_refund_cancel (uid : String) (l : List User) :
    updateFirst (fun u => u.id == uid) (fun u => { u with credits := u.credits + 1 })
      (updateFirst (fun u => u.id == uid) (fun u => { u with credits := u.credits - 1 }) l)
      = l := by
  induction l with
  | nil => rfl
  | cons a t ih =>
    by_cases ha : (a.id == uid) = true
    · simp only [updateFirst, ha, if_pos]
      refine congrArg (fun x => x :: t) ?_
      cases a with
      | mk i c ps => simp
    · simp only [updateFirst, ha, if_neg, Bool.false_eq_true, not_false_iff]
      rw [ih]

theorem storedCredits_debit {store : List User} {uid : String} {u : User}
    (hu : store.find? (fun v => v.id == uid) = some u) :
    storedCredits (updateFirst (fun v => v.id == uid)
      (fun v => { v with credits := v.credits - 1 }) store) uid
      = some (u.credits - 1) := by
  have hpred := List.find?_some hu
  have h2 := find?_updateFirst (f := fun v => { v with credits := v.credits - 1 })
    hu (by simpa using hpred)
  simp [storedCredits, storedUser, h2]

theorem listStarts_drop_of_occAux {pat : List Char} {s : List Char} {i : Nat}
    (h : occAux pat s = some i) : listStarts (s.drop i) pat = true := by
  induction s generalizing i with
  | nil =>
    by_cases hp : listStarts [] pat = true
    · simp only [occAux, hp, if_pos] at h
      injection h with h
      subst h
      simpa using hp
    · simp [occAux, hp] at h
  | cons c rest ih =>
    by_cases hp : listStarts (c :: rest) pat = true
    · simp only [occAux, hp, if_pos] at h
      injection h with h
      subst h
      simpa using hp
    · simp only [occAux, hp, if_neg, Bool.false_eq_true, not_false_iff,
        Option.map_eq_some'] at h
      obtain ⟨j, hj, rfl⟩ := h
      simpa [List.drop_succ_cons] using ih hj

theorem storedProject_updateFirst_proj {store : List User} {uid : String} {ts : Int}
    {u : User} {p : Project} {g : Project → Project}
    (hu : store.find? (fun v => v.id == uid) = some u)
    (hp : u.projects.find? (fun q => q.timestamp == ts) = some p)
    (hg : ((g p).timestamp == ts) = true) :
    storedProject (updateFirst (fun v => v.id == uid)
        (fun v => { v with projects :=
          (updateFirst (fun q => q.timestamp == ts) g v.projects) }) store) uid ts
      = some (g p) := by
  have hpred := List.find?_some hu
  have houter := find?_updateFirst
    (f := fun v => { v with projects :=
      (updateFirst (fun q => q.timestamp == ts) g v.projects) })
    hu (by simpa using hpred)
  simp [storedProject, storedUser, houter, find?_updateFirst hp hg]

theorem updateFirst_mem_find? {pred : α → Bool} {f : α → α} {l : List α} {x u : α}
    (hu : l.find? pred = some u) (hx : x ∈ updateFirst pred f l) :
    x ∈ l ∨ x = f u := by
  induction l with
  | nil => simp [updateFirst] at hx
  | cons a t ih =>
    by_cases ha : pred a = true
    · rw [List.find?_cons_of_pos _ ha] at hu
      injection hu with hu
      subst hu
      simp only [updateFirst, ha, if_pos, List.mem_cons] at hx
      rcases hx with h1 | h1
      · exact Or.inr h1
      · exact Or.inl (List.mem_cons_of_mem a h1)
    · rw [List.find?_cons_of_neg _ ha] at hu
      simp only [updateFirst, ha, if_neg, Bool.false_eq_true, not_false_iff,
        List.mem_cons] at hx
      rcases hx with h1 | h1
      · exact Or.inl (h1 ▸ List.mem_cons_self a t)
      · rcases ih hu h1 with h2 | h2
        · exact Or.inl (List.mem_cons_of_mem a h2)
        · exact Or.inr h2

theorem chatUnique_updateFirst {store : List User} {pred : User → Bool}
    {f : User → User} (h : chatUnique store)
    (hf : ∀ v, chatCount (f v) ≤ chatCount v) :
    chatUnique (updateFirst pred f store) := by
  intro x hx
  rcases updateFirst_mem hx with hmem | ⟨y, hy, rfl⟩
  · exact h x hmem
  · exact le_trans (hf y) (h y hy)

theorem chatUnique_updateFirst_of_find? {store : List User} {pred : User → Bool}
    {f : User → User} {u : User} (h : chatUnique store)
    (hu : store.find? pred = some u) (hf : chatCount (f u) ≤ 1) :
    chatUnique (updateFirst pred f store) := by
  intro x hx
  rcases updateFirst_mem_find? hu hx with hmem | rfl
  · exact h x hmem
  · exact hf

theorem chatCount_updateFirst_proj_eq (v : User) (pp : Project → Bool)
    (g : Project → Project)
    (hg : ∀ q, ((g q).name == CHAT_HISTORY_PROJECT_NAME)
      = (q.name == CHAT_HISTORY_PROJECT_NAME)) :
    chatCount { v with projects := (updateFirst pp g v.projects) } = chatCount v :=
  filter_length_updateFirst hg v.projects

theorem filter_length_updateFirst_le {pred q : α → Bool} {f : α → α}
    (hg : ∀ y, q (f y) = true → q y = true) (l : List α) :
    ((updateFirst pred f l).filter q).length ≤ (l.filter q).length := by
  induction l with
  | nil => exact Nat.le_refl _
  | cons a t ih =>
    by_cases ha : pred a = true
    · simp only [updateFirst, ha, if_pos, List.filter_cons]
      cases hqa : q (f a) with
      | true => simp [hg a hqa, hqa]
      | false => cases hqb : q a <;> simp [hqa, hqb]
    · simp only [updateFirst, ha, if_neg, Bool.false_eq_true, not_false_iff,
        List.filter_cons]
      cases hqa : q a with
      | true => simpa [hqa] using ih
      | false => simpa [hqa] using ih

theorem chatCount_filter_le (v : User) (keep : Project → Bool) :
    chatCount { v with projects := v.projects.filter keep } ≤ chatCount v :=
  List.Sublist.length_le
    (List.Sublist.filter _ (List.filter_sublist v.projects))

theorem chatCount_append_single (v : User) (proj : Project) :
    chatCount { v with projects := v.projects ++ [proj] }
      = chatCount v
        + (if (proj.name == CHAT_HISTORY_PROJECT_NAME) = true then 1 else 0) := by
  show ((v.projects ++ [proj]).filter _).length = _
  rw [List.filter_append, List.length_append]
  cases hname : (proj.name == CHAT_HISTORY_PROJECT_NAME) <;>
    simp [List.filter_cons, hname, chatCount]

theorem chatCount_eq_zero_of_none {v : User}
    (hnone : v.projects.find? (fun q => q.name == CHAT_HISTORY_PROJECT_NAME)
      = none) :
    chatCount v = 0 := by
  unfold chatCount
  rw [List.length_eq_zero, List.filter_eq_nil_iff]
  intro a ha
  have h1 := List.find?_eq_none.mp hnone a ha
  simpa using h1

/-! ## Invariant preservation, per handler -/

theorem chatUnique_save_project (uid : String) (proj : Project) {store : List User}
    (h : chatUnique store) : chatUnique (save_project uid proj store).disk := by
  cases hf : store.find? (fun v => v.id == uid) with
  | none => simpa [save_project, hf] using h
  | some user =>
    have hcu : chatCount user ≤ 1 := h user (List.mem_of_find?_eq_some hf)
    cases hname : (proj.name == CHAT_HISTORY_PROJECT_NAME) with
    | true =>
      cases hchat : user.projects.find?
          (fun q => q.name == CHAT_HISTORY_PROJECT_NAME) with
      | some e =>
        have hdisk : (save_project uid proj store).disk
            = updateFirst (fun v => v.id == uid)
                (fun v => { v with projects := (updateFirst
                  (fun q => q.name == CHAT_HISTORY_PROJECT_NAME)
                  (fun q => { q with html := proj.html, timestamp := proj.timestamp })
                  v.projects) }) store := by
          simp [save_project, hf, hname, hchat]
        rw [hdisk]
        refine chatUnique_updateFirst_of_find? h hf ?_
        refine le_trans (le_of_eq (chatCount_updateFirst_proj_eq user
          (fun q => q.name == CHAT_HISTORY_PROJECT_NAME)
          (fun q => { q with html := proj.html, timestamp := proj.timestamp })
          (fun q => rfl))) hcu
      | none =>
        have hdisk : (save_project uid proj store).disk
            = updateFirst (fun v => v.id == uid)
                (fun v => { v with projects := v.projects ++ [proj] }) store := by
          simp [save_project, hf, hname, hchat]
        rw [hdisk]
        refine chatUnique_updateFirst_of_find? h hf ?_
        rw [chatCount_append_single, chatCount_eq_zero_of_none hchat]
        simp [hname]
    | false =>
      have hdisk : (save_project uid proj store).disk
          = updateFirst (fun v => v.id == uid)
              (fun v => { v with projects := v.projects ++ [proj] }) store := by
        simp [save_project, hf, hname]
      rw [hdisk]
      refine chatUnique_updateFirst_of_find? h hf ?_
      rw [chatCount_append_single]
      simp [hname, hcu]

theorem chatUnique_update_project (uid : String) (ts : Int) (body : Project)
    {store : List User} (h : chatUnique store)
    (hname : (body.name == CHAT_HISTORY_PROJECT_NAME) = false) :
    chatUnique (update_project_code uid ts body store).disk := by
  cases hf : store.find? (fun v => v.id == uid) with
  | none => simpa [update_project_code, hf] using h
  | some user =>
    cases hp : user.projects.find? (fun q => q.timestamp == ts) with
    | none => simpa [update_project_code, hf, hp] using h
    | some p =>
      have hdisk : (update_project_code uid ts body store).disk
          = updateFirst (fun v => v.id == uid)
              (fun v => { v with projects := (updateFirst
                (fun q => q.timestamp == ts) (overwriteFrom body) v.projects) })
              store := by
        simp [update_project_code, hf, hp]
      rw [hdisk]
      refine chatUnique_updateFirst h (fun v => ?_)
      refine filter_length_updateFirst_le (fun y hy => ?_) v.projects
      rw [show (overwriteFrom body y).name = body.name from rfl, hname] at hy
      exact absurd hy (by simp)

theorem chatUnique_delete_project (uid : String) (ts : Int) {store : List User}
    (h : chatUnique store) : chatUnique (delete_project uid ts store).disk := by
  cases hf : store.find? (fun v => v.id == uid) with
  | none => simpa [delete_project, hf] using h
  | some user =>
    cases hlen : ((user.projects.filter (fun p => !(p.timestamp == ts))).length
        == user.projects.length) with
    | true => simpa [delete_project, hf, hlen] using h
    | false =>
      have hdisk : (delete_project uid ts store).disk
          = updateFirst (fun v => v.id == uid)
              (fun v => { v with projects :=
                v.projects.filter (fun p => !(p.timestamp == ts)) }) store := by
        simp [delete_project, hf, hlen]
      rw [hdisk]
      exact chatUnique_updateFirst h (fun v => chatCount_filter_le v _)

theorem chatUnique_delete_all (uid : String) {store : List User}
    (h : chatUnique store) : chatUnique (delete_all_projects uid store).disk := by
  cases hf : store.find? (fun v => v.id == uid) with
  | none => simpa [delete_all_projects, hf] using h
  | some user =>
    have hdisk : (delete_all_projects uid store).disk
        = updateFirst (fun v => v.id == uid)
            (fun v => { v with projects :=
              v.projects.filter (fun p => p.name == CHAT_HISTORY_PROJECT_NAME) })
            store := by
      simp [delete_all_projects, hf]
    rw [hdisk]
    exact chatUnique_updateFirst h (fun v => chatCount_filter_le v _)

theorem chatUnique_create_user (uid? : Option String) (cr? : Option Int)
    {store : List User} (h : chatUnique store) :
    chatUnique (create_user uid? cr? store).disk := by
  cases h1 : truthyOptStr uid? with
  | false => simpa [create_user, h1] using h
  | true =>
    cases h2 : store.any (fun u => u.id == uid?.getD "") with
    | true => simpa [create_user, h1, h2] using h
    | false =>
      have hdisk : (create_user uid? cr? store).disk
          = store ++ [{ id := uid?.getD "", credits := cr?.getD 10, projects := [] }] := by
        simp [create_user, h1, h2]
      rw [hdisk]
      intro x hx
      rcases List.mem_append.mp hx with hmem | hmem
      · exact h x hmem
      · rw [List.mem_singleton.mp hmem]
        simp [chatCount]

theorem chatUnique_publish (config : PublishConfig) (oracle : DeployResult)
    (uid : String) (ts : Int) (content : HtmlContent) {store : List User}
    (h : chatUnique store) :
    chatUnique (publish_site config oracle uid ts content store).disk := by
  cases htok : config.hasVercelToken with
  | false => simpa [publish_site, htok] using h
  | true =>
    cases hf : store.find? (fun v => v.id == uid) with
    | none => simpa [publish_site, htok, hf] using h
    | some user =>
      cases hp : user.projects.find? (fun p => p.timestamp == ts) with
      | none => simpa [publish_site, htok, hf, hp] using h
      | some p =>
        cases oracle with
        | error e => simpa [publish_site, htok, hf, hp] using h
        | ok url =>
          have hdisk : (publish_site config (.ok url) uid ts content store).disk
              = updateFirst (fun v => v.id == uid)
                  (fun v => { v with projects := (updateFirst
                    (fun q => q.timestamp == ts)
                    (fun q => { q with published_url := some ("https://" ++ url) })
                    v.projects) }) store := by
            simp [publish_site, htok, hf, hp]
          rw [hdisk]
          exact chatUnique_updateFirst h (fun v =>
            le_of_eq (chatCount_updateFirst_proj_eq v _ _ (fun q => rfl)))

theorem generate_code_disk_cases (oracle : GenOracle) (request : GenerationRequest)
    (store : List User) :
    (generate_code oracle request store).disk = store ∨
    (generate_code oracle request store).disk
        = updateFirst (fun v => v.id == request.user_id)
            (fun v => { v with credits := v.credits - 1 }) store ∨
    (generate_code oracle request store).disk
        = updateFirst (fun v => v.id == request.user_id)
            (fun v => { v with credits := v.credits + 1 })
            (updateFirst (fun v => v.id == request.user_id)
              (fun v => { v with credits := v.credits - 1 }) store) := by
  obtain ⟨vres, mres⟩ := oracle
  cases hf : store.find? (fun v => v.id == request.user_id) with
  | none => left; simp [generate_code, hf]
  | some user =>
    by_cases hc : user.credits ≤ 0
    · left; simp [generate_code, hf, hc]
    · cases hb : truthyOptStr request.target_language <;>
        cases himg : request.image_data <;>
          cases hreact : request.target_language == some "react" <;>
            cases hchat : request.is_chat_mode <;>
              cases vres <;> cases mres <;>
                simp [generate_code, hf, hc, hb, himg, hreact, hchat]

theorem chatUnique_generate (oracle : GenOracle) (request : GenerationRequest)
    {store : List User} (h : chatUnique store) :
    chatUnique (generate_code oracle request store).disk := by
  rcases generate_code_disk_cases oracle request store with hd | hd | hd <;> rw [hd]
  · exact h
  · exact chatUnique_updateFirst h (fun v => le_of_eq rfl)
  · exact chatUnique_updateFirst
      (chatUnique_updateFirst h (fun v => le_of_eq rfl)) (fun v => le_of_eq rfl)

theorem chatUnique_suggest (oracle : ModelResult) (request : SuggestionRequest)
    {store : List User} (h : chatUnique store) :
    chatUnique (suggest_improvements oracle request store).disk := by
  cases hf : store.find? (fun v => v.id == request.user_id) with
  | none => simpa [suggest_improvements, hf] using h
  | some user =>
    cases hcach : suggestCached?
        (user.projects.find? (fun p => p.timestamp == request.timestamp))
        request.force_regenerate with
    | some s => simpa [suggest_improvements, hf, hcach] using h
    | none =>
      by_cases hc : user.credits ≤ 0
      · simpa [suggest_improvements, hf, hcach, hc] using h
      · cases oracle with
        | error e =>
          have hdisk : (suggest_improvements (.error e) request store).disk
              = updateFirst (fun v => v.id == request.user_id)
                  (fun v => { v with credits := v.credits + 1 })
                  (updateFirst (fun v => v.id == request.user_id)
                    (fun v => { v with credits := v.credits - 1 }) store) := by
            simp [suggest_improvements, hf, hcach, hc]
          rw [hdisk, updateFirst_refund_cancel]
          exact h
        | ok sug =>
          cases hps : (user.projects.find?
              (fun p => p.timestamp == request.timestamp)).isSome with
          | false =>
            have hdisk : (suggest_improvements (.ok sug) request store).disk
                = updateFirst (fun v => v.id == request.user_id)
                    (fun v => { v with credits := v.credits - 1 }) store := by
              simp [suggest_improvements, hf, hcach, hc, hps]
            rw [hdisk]
            exact chatUnique_updateFirst h (fun v => le_of_eq rfl)
          | true =>
            have hdisk : (suggest_improvements (.ok sug) request store).disk
                = updateFirst (fun v => v.id == request.user_id)
                    (fun v => { v with projects := (updateFirst
                      (fun p => p.timestamp == request.timestamp)
                      (fun p => { p with suggestions := some sug })
                      v.projects) })
                    (updateFirst (fun v => v.id == request.user_id)
                      (fun v => { v with credits := v.credits - 1 }) store) := by
              simp [suggest_improvements, hf, hcach, hc, hps]
            rw [hdisk]
            refine chatUnique_updateFirst ?_ (fun v =>
              le_of_eq (chatCount_updateFirst_proj_eq v _ _ (fun q => rfl)))
            exact chatUnique_updateFirst h (fun v => le_of_eq rfl)

/-! ## Claim theorems -/

/-- C4: a `/generate/` request naming an existing user whose credit balance
is not greater than 0 is rejected with the insufficient-balance error, makes
no external call, and leaves the stored state unchanged. -/
theorem generate_insufficient_credits_rejected
    (oracle : GenOracle) (request : GenerationRequest) (store : List User) (u : User)
    (hu : storedUser store request.user_id = some u)
    (hc : u.credits ≤ 0) :
    (generate_code oracle request store).result = .error ⟨400, "Insufficient credits"⟩ ∧
    (generate_code oracle request store).disk = store ∧
    (generate_code oracle request store).calls = [] := by
  unfold storedUser at hu
  simp [generate_code, hu, hc]

/-- C4 witness. -/
theorem generate_insufficient_credits_rejected_witness :
    (generate_code ⟨.ok "v", .ok "m"⟩
        { prompt := "p", user_id := "u1" }
        [{ id := "u1", credits := 0, projects := [] }]).result
      = .error ⟨400, "Insufficient credits"⟩ :=
  (generate_insufficient_credits_rejected ⟨.ok "v", .ok "m"⟩
    { prompt := "p", user_id := "u1" }
    [{ id := "u1", credits := 0, projects := [] }]
    { id := "u1", credits := 0, projects := [] }
    (by decide) (by decide)).1

/-- Behaviour of `generate_code` on the billable branch (blank
`target_language`): the debit is persisted, and the refund restores the
store on the except branch. Shared helper for the credit claims. -/
theorem generate_code_billable_spec
    (oracle : GenOracle) (request : GenerationRequest) (store : List User) (u : User)
    (hu : storedUser store request.user_id = some u)
    (hc : 0 < u.credits)
    (hb : truthyOptStr request.target_language = false) :
    (∀ r, (generate_code oracle request store).result = .ok r →
      storedCredits (generate_code oracle request store).disk request.user_id
        = some (u.credits - 1)) ∧
    (∀ err, (generate_code oracle request store).result = .error err →
      (generate_code oracle request store).disk = store) := by
  have hu' : store.find? (fun v => v.id == request.user_id) = some u := hu
  have hnc : ¬ u.credits ≤ 0 := not_le.mpr hc
  have hr : (request.target_language == some "react") = false := by
    cases htl : request.target_language with
    | none => rfl
    | some s =>
      rw [htl] at hb
      simp [truthyOptStr] at hb
      subst hb
      rfl
  obtain ⟨vres, mres⟩ := oracle
  cases himg : request.image_data with
  | none =>
    cases mres with
    | ok res =>
      cases hchat : request.is_chat_mode <;>
        simp [generate_code, hu', hnc, hb, hr, himg, hchat,
          storedCredits_debit hu']
    | error e =>
      cases hchat : request.is_chat_mode <;>
        simp [generate_code, hu', hnc, hb, hr, himg, hchat,
          updateFirst_refund_cancel]
  | some img =>
    cases vres with
    | ok vr =>
      cases mres with
      | ok res =>
        cases hchat : request.is_chat_mode <;>
          simp [generate_code, hu', hnc, hb, hr, himg, hchat,
            storedCredits_debit hu']
      | error e =>
        cases hchat : request.is_chat_mode <;>
          simp [generate_code, hu', hnc, hb, hr, himg, hchat,
            updateFirst_refund_cancel]
    | error e =>
      simp [generate_code, hu', hnc, hb, hr, himg, updateFirst_refund_cancel]

/-- C1: on the billable path (no target language selected), a `/generate/`
request that succeeds persists the user's credits exactly 1 lower, and one
whose external call fails persists a store equal to the one before the
request (the debit is reversed by the refund). -/
theorem generate_billable_credit_accounting
    (oracle : GenOracle) (request : GenerationRequest) (store : List User) (u : User)
    (hu : storedUser store request.user_id = some u)
    (hc : 0 < u.credits)
    (hb : truthyOptStr request.target_language = false) :
    (∀ r, (generate_code oracle request store).result = .ok r →
      storedCredits (generate_code oracle request store).disk request.user_id
        = some (u.credits - 1)) ∧
    (∀ err, (generate_code oracle request store).result = .error err →
      (generate_code oracle request store).disk = store) :=
  generate_code_billable_spec oracle request store u hu hc hb

/-- C1 witness: a concrete billable success and a concrete billable
external failure with the predicted stored balances. -/
theorem generate_billable_credit_accounting_witness :
    storedCredits (generate_code ⟨.ok "v", .ok "<!DOCTYPE html>ok"⟩
        { prompt := "p", user_id := "u1" }
        [{ id := "u1", credits := 10, projects := [] }]).disk "u1"
      = some 9 ∧
    (generate_code ⟨.ok "v", .error "boom"⟩
        { prompt := "p", user_id := "u1" }
        [{ id := "u1", credits := 10, projects := [] }]).disk
      = [{ id := "u1", credits := 10, projects := [] }] := by
  constructor
  · exact (generate_billable_credit_accounting ⟨.ok "v", .ok "<!DOCTYPE html>ok"⟩
      { prompt := "p", user_id := "u1" }
      [{ id := "u1", credits := 10, projects := [] }]
      { id := "u1", credits := 10, projects := [] }
      (by decide) (by decide) (by decide)).1
      (.htmlRes "<!DOCTYPE html>ok" 9) (by rfl)
  · exact (generate_billable_credit_accounting ⟨.ok "v", .error "boom"⟩
      { prompt := "p", user_id := "u1" }
      [{ id := "u1", credits := 10, projects := [] }]
      { id := "u1", credits := 10, projects := [] }
      (by decide) (by decide) (by decide)).2
      ⟨500, "An error occurred during generation: boom"⟩ (by rfl)

/-- Behaviour of `generate_code` when `target_language` is non-blank: no
debit, no refund, store untouched; when additionally the language is not
`"react"`, control falls through to the chat or default branch. -/
theorem generate_code_nonbillable_spec
    (oracle : GenOracle) (request : GenerationRequest) (store : List User) (u : User)
    (hu : storedUser store request.user_id = some u)
    (hc : 0 < u.credits)
    (hb : truthyOptStr request.target_language = true) :
    (generate_code oracle request store).disk = store ∧
    ((request.target_language == some "react") = false →
      request.image_data = none →
      ∀ res, oracle.mainResult = .ok res →
        (generate_code oracle request store).result
          = .ok (.htmlRes (if request.is_chat_mode then res else truncateAtDoctype res)
              u.credits)) := by
  have hu' : store.find? (fun v => v.id == request.user_id) = some u := hu
  have hnc : ¬ u.credits ≤ 0 := not_le.mpr hc
  obtain ⟨vres, mres⟩ := oracle
  constructor
  · cases himg : request.image_data <;>
      cases hreact : request.target_language == some "react" <;>
        cases hchat : request.is_chat_mode <;>
          cases vres <;> cases mres <;>
            simp [generate_code, hu', hnc, hb, himg, hreact, hchat]
  · intro hreact himg res hres
    simp only at hres
    subst hres
    cases hchat : request.is_chat_mode <;>
      simp [generate_code, hu', hnc, hb, himg, hreact, hchat]

/-- C9: a `/generate/` request debits a credit iff `target_language` is
absent or empty; a non-blank `target_language` other than `"react"` skips
debit and refund (the store is untouched on every path) yet falls through
to the chat or default site-build branch, answering a full generation with
the user's unchanged balance. -/
theorem generate_debit_iff_blank_target
    (oracle : GenOracle) (request : GenerationRequest) (store : List User) (u : User)
    (hu : storedUser store request.user_id = some u)
    (hc : 0 < u.credits) :
    (truthyOptStr request.target_language = true →
      (generate_code oracle request store).disk = store ∧
      ((request.target_language == some "react") = false →
        request.image_data = none →
        ∀ res, oracle.mainResult = .ok res →
          (generate_code oracle request store).result
            = .ok (.htmlRes (if request.is_chat_mode then res else truncateAtDoctype res)
                u.credits))) ∧
    (truthyOptStr request.target_language = false →
      ∀ r, (generate_code oracle request store).result = .ok r →
        storedCredits (generate_code oracle request store).disk request.user_id
          = some (u.credits - 1)) :=
  ⟨fun hb => generate_code_nonbillable_spec oracle request store u hu hc hb,
   fun hb => (generate_code_billable_spec oracle request store u hu hc hb).1⟩

/-- C9 witness: a request with `target_language := "python"` leaves the
store untouched and answers a default-branch generation with the unchanged
balance. -/
theorem generate_debit_iff_blank_target_witness :
    (generate_code ⟨.ok "v", .ok "pre<!DOCTYPE html>site"⟩
        { prompt := "p", user_id := "u1", target_language := some "python" }
        [{ id := "u1", credits := 10, projects := [] }]).disk
      = [{ id := "u1", credits := 10, projects := [] }] ∧
    (generate_code ⟨.ok "v", .ok "pre<!DOCTYPE html>site"⟩
        { prompt := "p", user_id := "u1", target_language := some "python" }
        [{ id := "u1", credits := 10, projects := [] }]).result
      = .ok (.htmlRes "<!DOCTYPE html>site" 10) := by
  have h := (generate_debit_iff_blank_target
    ⟨.ok "v", .ok "pre<!DOCTYPE html>site"⟩
    { prompt := "p", user_id := "u1", target_language := some "python" }
    [{ id := "u1", credits := 10, projects := [] }]
    { id := "u1", credits := 10, projects := [] }
    (by decide) (by decide)).1 (by decide)
  refine ⟨h.1, ?_⟩
  have h2 := h.2 (by decide) (by rfl) "pre<!DOCTYPE html>site" (by rfl)
  simpa using h2

/-- C8: in the default site-build branch, when the model output contains
the canonical document-start marker, the returned `html` is that output
truncated to start at the marker's first occurrence (the preamble is
discarded), so it starts with the marker. -/
theorem generate_default_truncates_to_doctype
    (oracle : GenOracle) (request : GenerationRequest) (store : List User) (u : User)
    (res : String) (i : Nat)
    (hu : storedUser store request.user_id = some u)
    (hc : 0 < u.credits)
    (hreact : (request.target_language == some "react") = false)
    (hchat : request.is_chat_mode = false)
    (himg : request.image_data = none)
    (hmain : oracle.mainResult = .ok res)
    (hocc : pyFind res html_start_tag = some i) :
    (generate_code oracle request store).result
      = .ok (.htmlRes (truncateAtDoctype res)
          (if truthyOptStr request.target_language = true then u.credits
           else u.credits - 1)) ∧
    truncateAtDoctype res = String.mk (res.data.drop i) ∧
    listStarts (truncateAtDoctype res).data html_start_tag.data = true := by
  have hu' : store.find? (fun v => v.id == request.user_id) = some u := hu
  have hnc : ¬ u.credits ≤ 0 := not_le.mpr hc
  have htr : truncateAtDoctype res = String.mk (res.data.drop i) := by
    simp [truncateAtDoctype, hocc]
  have hocc' : occAux html_start_tag.data res.data = some i := hocc
  have hstart : listStarts (truncateAtDoctype res).data html_start_tag.data = true := by
    rw [htr]
    exact listStarts_drop_of_occAux hocc'
  refine ⟨?_, htr, hstart⟩
  cases hb : truthyOptStr request.target_language <;>
    simp [generate_code, hu', hnc, hreact, hchat, himg, hb, hmain]

/-- C8 witness: a model output with a preamble before the marker is
returned truncated to the marker. -/
theorem generate_default_truncates_to_doctype_witness :
    (generate_code ⟨.ok "v", .ok "junk<!DOCTYPE html>page"⟩
        { prompt := "p", user_id := "u1" }
        [{ id := "u1", credits := 10, projects := [] }]).result
      = .ok (.htmlRes "<!DOCTYPE html>page" 9) ∧
    listStarts ("<!DOCTYPE html>page").data html_start_tag.data = true := by
  have h := generate_default_truncates_to_doctype
    ⟨.ok "v", .ok "junk<!DOCTYPE html>page"⟩
    { prompt := "p", user_id := "u1" }
    [{ id := "u1", credits := 10, projects := [] }]
    { id := "u1", credits := 10, projects := [] }
    "junk<!DOCTYPE html>page" 4
    (by decide) (by decide) (by decide) (by decide) (by rfl) (by rfl) (by decide)
  refine ⟨?_, ?_⟩
  · have h1 := h.1
    simpa using h1
  · have h3 := h.2.2
    have htr : truncateAtDoctype "junk<!DOCTYPE html>page" = "<!DOCTYPE html>page" := by
      decide
    rw [htr] at h3
    exact h3

/-- C10: `PUT /users/{user_id}/projects/{timestamp}` overwrites the matched
project's name, html, published_url, react and suggestions from the body
but never its timestamp, even when the body carries a different timestamp
value. -/
theorem update_project_overwrites_all_but_timestamp
    (user_id : String) (timestamp : Int) (body : Project) (store : List User)
    (u : User) (p : Project)
    (hu : storedUser store user_id = some u)
    (hp : u.projects.find? (fun q => q.timestamp == timestamp) = some p) :
    (update_project_code user_id timestamp body store).result
      = .ok (overwriteFrom body p) ∧
    storedProject (update_project_code user_id timestamp body store).disk
        user_id timestamp
      = some (overwriteFrom body p) ∧
    (overwriteFrom body p).name = body.name ∧
    (overwriteFrom body p).html = body.html ∧
    (overwriteFrom body p).published_url = body.published_url ∧
    (overwriteFrom body p).react = body.react ∧
    (overwriteFrom body p).suggestions = body.suggestions ∧
    (overwriteFrom body p).timestamp = p.timestamp := by
  have hu' : store.find? (fun v => v.id == user_id) = some u := hu
  have hts := List.find?_some hp
  refine ⟨?_, ?_, rfl, rfl, rfl, rfl, rfl, rfl⟩
  · simp [update_project_code, hu', hp]
  · have hdisk : (update_project_code user_id timestamp body store).disk
        = updateFirst (fun v => v.id == user_id)
            (fun v => { v with projects :=
              (updateFirst (fun q => q.timestamp == timestamp)
                (overwriteFrom body) v.projects) }) store := by
      simp [update_project_code, hu', hp]
    rw [hdisk]
    exact storedProject_updateFirst_proj hu' hp (by simpa [overwriteFrom] using hts)

/-- C10 witness: updating a stored project with a body carrying a different
timestamp keeps the stored timestamp. -/
theorem update_project_overwrites_all_but_timestamp_witness :
    (update_project_code "u1" 5
        { name := "renamed", html := "<p>new</p>", timestamp := 99 }
        [{ id := "u1", credits := 3,
           projects := [{ name := "old", html := "<p>old</p>", timestamp := 5 }] }]).result
      = .ok { name := "renamed", html := "<p>new</p>", timestamp := 5 } ∧
    storedProject (update_project_code "u1" 5
        { name := "renamed", html := "<p>new</p>", timestamp := 99 }
        [{ id := "u1", credits := 3,
           projects := [{ name := "old", html := "<p>old</p>", timestamp := 5 }] }]).disk
        "u1" 5
      = some { name := "renamed", html := "<p>new</p>", timestamp := 5 } := by
  have h := update_project_overwrites_all_but_timestamp "u1" 5
    { name := "renamed", html := "<p>new</p>", timestamp := 99 }
    [{ id := "u1", credits := 3,
       projects := [{ name := "old", html := "<p>old</p>", timestamp := 5 }] }]
    { id := "u1", credits := 3,
      projects := [{ name := "old", html := "<p>old</p>", timestamp := 5 }] }
    { name := "old", html := "<p>old</p>", timestamp := 5 }
    (by decide) (by decide)
  exact ⟨h.1, h.2.1⟩

/-- C6: for a publish request on an existing user and project, a failing
deployment call surfaces a 502 with the external error and leaves the
stored state exactly as before; a successful one persists the returned URL
onto the project. -/
theorem publish_failure_preserves_state
    (config : PublishConfig) (oracle : DeployResult)
    (user_id : String) (timestamp : Int) (content : HtmlContent)
    (store : List User) (u : User) (p : Project)
    (htok : config.hasVercelToken = true)
    (hu : storedUser store user_id = some u)
    (hp : u.projects.find? (fun q => q.timestamp == timestamp) = some p) :
    (∀ e, oracle = .error e →
      (publish_site config oracle user_id timestamp content store).result
        = .error ⟨502, "Publishing service error: " ++ e⟩ ∧
      (publish_site config oracle user_id timestamp content store).disk = store) ∧
    (∀ url, oracle = .ok url →
      (publish_site config oracle user_id timestamp content store).result
        = .ok ("https://" ++ url) ∧
      storedProject (publish_site config oracle user_id timestamp content store).disk
          user_id timestamp
        = some { p with published_url := some ("https://" ++ url) }) := by
  have hu' : store.find? (fun v => v.id == user_id) = some u := hu
  have hts := List.find?_some hp
  constructor
  · intro e hor
    subst hor
    refine ⟨?_, ?_⟩ <;> simp [publish_site, htok, hu', hp]
  · intro url hor
    subst hor
    refine ⟨by simp [publish_site, htok, hu', hp], ?_⟩
    have hdisk : (publish_site config (.ok url) user_id timestamp content store).disk
        = updateFirst (fun v => v.id == user_id)
            (fun v => { v with projects :=
              (updateFirst (fun q => q.timestamp == timestamp)
                (fun q => { q with published_url := some ("https://" ++ url) })
                v.projects) }) store := by
      simp [publish_site, htok, hu', hp]
    rw [hdisk]
    exact storedProject_updateFirst_proj hu' hp (by simpa using hts)

/-- C6 witness: a concrete failing deployment leaves the store untouched;
a concrete successful one persists the URL. -/
theorem publish_failure_preserves_state_witness :
    (publish_site ⟨true⟩ (.error "quota") "u1" 7 ⟨"<p>x</p>"⟩
        [{ id := "u1", credits := 2,
           projects := [{ name := "site", html := "<p>x</p>", timestamp := 7 }] }]).disk
      = [{ id := "u1", credits := 2,
           projects := [{ name := "site", html := "<p>x</p>", timestamp := 7 }] }] ∧
    storedProject (publish_site ⟨true⟩ (.ok "site.vercel.app") "u1" 7 ⟨"<p>x</p>"⟩
        [{ id := "u1", credits := 2,
           projects := [{ name := "site", html := "<p>x</p>", timestamp := 7 }] }]).disk
        "u1" 7
      = some { name := "site", html := "<p>x</p>", timestamp := 7,
               published_url := some "https://site.vercel.app" } := by
  constructor
  · exact ((publish_failure_preserves_state ⟨true⟩ (.error "quota") "u1" 7
      ⟨"<p>x</p>"⟩
      [{ id := "u1", credits := 2,
         projects := [{ name := "site", html := "<p>x</p>", timestamp := 7 }] }]
      { id := "u1", credits := 2,
        projects := [{ name := "site", html := "<p>x</p>", timestamp := 7 }] }
      { name := "site", html := "<p>x</p>", timestamp := 7 }
      (by decide) (by decide) (by decide)).1 "quota" rfl).2
  · exact ((publish_failure_preserves_state ⟨true⟩ (.ok "site.vercel.app") "u1" 7
      ⟨"<p>x</p>"⟩
      [{ id := "u1", credits := 2,
         projects := [{ name := "site", html := "<p>x</p>", timestamp := 7 }] }]
      { id := "u1", credits := 2,
        projects := [{ name := "site", html := "<p>x</p>", timestamp := 7 }] }
      { name := "site", html := "<p>x</p>", timestamp := 7 }
      (by decide) (by decide) (by decide)).2 "site.vercel.app" rfl).2

theorem decodeProject_encodeProject (p : Project) :
    decodeProject (encodeProject p) = some p := by
  cases p with
  | mk n h ts pu re su => cases pu <;> cases re <;> cases su <;> rfl

theorem decodeList_encodeProject (ps : List Project) :
    decodeList decodeProject (ps.map encodeProject) = some ps := by
  induction ps with
  | nil => rfl
  | cons p t ih => simp [decodeList, decodeProject_encodeProject, ih]

theorem decodeUser_encodeUser (u : User) : decodeUser (encodeUser u) = some u := by
  cases u with
  | mk i c ps =>
    have h := decodeList_encodeProject ps
    simp only [decodeUser, encodeUser, jLookup]
    simp [h, decodeStr, decodeInt]

theorem read_write_roundtrip (users : List User) :
    read_users_db (write_users_db users) = .ok users := by
  have h : decodeList decodeUser (users.map encodeUser) = some users := by
    induction users with
    | nil => rfl
    | cons u t ih => simp [decodeList, decodeUser_encodeUser, ih]
  simp [read_users_db, write_users_db, h]

/-- C7 counterexample: content that parses as JSON but is not a valid
stored collection (a user object missing its required `credits` field)
makes `load()` raise (pydantic validation is outside the try/except) rather
than return the empty collection. -/
theorem read_users_db_malformed_raises :
    read_users_db (.jsonContent (.jarr [.jobj [("id", .jstr "u1")]])) = .raised ∧
    read_users_db (.jsonContent (.jarr [.jobj [("id", .jstr "u1")]])) ≠ .ok [] := by
  exact ⟨rfl, by decide⟩

/-- C7 (amended): a missing backing file, an unreadable one, and content on
which JSON parsing fails degrade to the empty collection, as do an empty
JSON object and an empty JSON string (line 89 iterates them zero times);
but not every malformed content degrades: a list containing a user object
that fails validation — such as one missing its required `credits` field —
raises out of `load()` instead; and every well-formed stored collection
(as written by `write_users_db`) loads back as itself. -/
theorem read_users_db_spec :
    read_users_db .missing = .ok [] ∧
    read_users_db .unreadable = .ok [] ∧
    read_users_db .invalidJson = .ok [] ∧
    read_users_db (.jsonContent (.jobj [])) = .ok [] ∧
    read_users_db (.jsonContent (.jstr "")) = .ok [] ∧
    read_users_db (.jsonContent (.jarr [.jobj [("id", .jstr "u1")]])) = .raised ∧
    ∀ users : List User, read_users_db (write_users_db users) = .ok users :=
  ⟨rfl, rfl, rfl, rfl, rfl, rfl, read_write_roundtrip⟩

/-- C3 counterexample: when the model's first answer is the empty string,
the value cached on the project is falsy, so a second request with
`force_regenerate` unset is not served from cache: it reports
`cached = false` again, calls the model again, and debits a second credit,
refuting the claim as stated. -/
theorem suggest_cache_empty_counterexample :
    (suggest_improvements (.ok "")
        { user_id := "u1", html_content := "<p></p>", timestamp := 1 }
        [{ id := "u1", credits := 10,
           projects := [{ name := "site", html := "<p></p>", timestamp := 1 }] }]).result
      = .ok ⟨"", 9, false⟩ ∧
    (suggest_improvements (.ok "retry")
        { user_id := "u1", html_content := "<p></p>", timestamp := 1 }
        (suggest_improvements (.ok "")
          { user_id := "u1", html_content := "<p></p>", timestamp := 1 }
          [{ id := "u1", credits := 10,
             projects := [{ name := "site", html := "<p></p>", timestamp := 1 }] }]).disk).result
      = .ok ⟨"retry", 8, false⟩ :=
  ⟨rfl, rfl⟩

/-- C3 (amended): for a pair of `/suggest_improvements/` requests on the
same existing user and project with `force_regenerate` unset, where the
project holds no truthy cached suggestions, the user has credits, and the
first call's model answer is non-empty: the first request reports
`cached = false` after one model call; the second request returns exactly
the text stored by the first with `cached = true`, performs no external
call, leaves the store untouched, and does not decrement the credits (it
answers before the credit check). -/
theorem suggest_cache_second_call
    (request : SuggestionRequest) (store : List User)
    (u : User) (p : Project) (sug : String)
    (hu : storedUser store request.user_id = some u)
    (hp : u.projects.find? (fun q => q.timestamp == request.timestamp) = some p)
    (hfresh : truthyOptStr p.suggestions = false)
    (hforce : request.force_regenerate = false)
    (hc : 0 < u.credits)
    (hne : (sug == "") = false) :
    (suggest_improvements (.ok sug) request store).result
      = .ok ⟨sug, u.credits - 1, false⟩ ∧
    (suggest_improvements (.ok sug) request store).calls = [.text] ∧
    ∀ oracle2 : ModelResult,
      (suggest_improvements oracle2 request
          (suggest_improvements (.ok sug) request store).disk).result
        = .ok ⟨sug, u.credits - 1, true⟩ ∧
      (suggest_improvements oracle2 request
          (suggest_improvements (.ok sug) request store).disk).disk
        = (suggest_improvements (.ok sug) request store).disk ∧
      (suggest_improvements oracle2 request
          (suggest_improvements (.ok sug) request store).disk).calls = [] := by
  have hu' : store.find? (fun v => v.id == request.user_id) = some u := hu
  have hid := List.find?_some hu'
  have hts := List.find?_some hp
  have hnc : ¬ u.credits ≤ 0 := not_le.mpr hc
  have hcached1 : suggestCached? (some p) request.force_regenerate = none := by
    simp [suggestCached?, hfresh]
  have hdisk1 : (suggest_improvements (.ok sug) request store).disk
      = updateFirst (fun v => v.id == request.user_id)
          (fun v => { v with projects :=
            (updateFirst (fun q => q.timestamp == request.timestamp)
              (fun q => { q with suggestions := some sug }) v.projects) })
          (updateFirst (fun v => v.id == request.user_id)
            (fun v => { v with credits := v.credits - 1 }) store) := by
    simp [suggest_improvements, hu', hp, hcached1, hnc]
  have hfd1 : (updateFirst (fun v => v.id == request.user_id)
      (fun v => { v with credits := v.credits - 1 }) store).find?
        (fun v => v.id == request.user_id)
      = some { u with credits := u.credits - 1 } :=
    find?_updateFirst hu' (by simpa using hid)
  have hfd2 : ((suggest_improvements (.ok sug) request store).disk).find?
        (fun v => v.id == request.user_id)
      = some { u with
               credits := u.credits - 1,
               projects := (updateFirst (fun q => q.timestamp == request.timestamp)
                 (fun q => { q with suggestions := some sug }) u.projects) } := by
    rw [hdisk1]
    exact find?_updateFirst hfd1 (by simpa using hid)
  have hp2 : (updateFirst (fun q => q.timestamp == request.timestamp)
        (fun q => { q with suggestions := some sug }) u.projects).find?
        (fun q => q.timestamp == request.timestamp)
      = some { p with suggestions := some sug } :=
    find?_updateFirst hp (by simpa using hts)
  have hcached2 : suggestCached? (some { p with suggestions := some sug })
      request.force_regenerate = some sug := by
    simp [suggestCached?, truthyOptStr, hne, hforce]
  refine ⟨?_, ?_, ?_⟩
  · simp [suggest_improvements, hu', hp, hcached1, hnc]
  · simp [suggest_improvements, hu', hp, hcached1, hnc]
  · intro oracle2
    generalize hgen : (suggest_improvements (.ok sug) request store).disk = d at hfd2 ⊢
    refine ⟨?_, ?_, ?_⟩ <;> simp [suggest_improvements, hfd2, hp2, hcached2]

/-- C3 witness: with balance 1, the first call stores the suggestion and
drops the balance to 0; the second call is still served from cache (no
credit check), leaving everything unchanged, even though the model oracle
of the second call would fail. -/
theorem suggest_cache_second_call_witness :
    (suggest_improvements (.ok "Use alt text.")
        { user_id := "u1", html_content := "<p></p>", timestamp := 3 }
        [{ id := "u1", credits := 1,
           projects := [{ name := "site", html := "<p></p>", timestamp := 3 }] }]).result
      = .ok ⟨"Use alt text.", 0, false⟩ ∧
    (suggest_improvements (.error "down")
        { user_id := "u1", html_content := "<p></p>", timestamp := 3 }
        (suggest_improvements (.ok "Use alt text.")
          { user_id := "u1", html_content := "<p></p>", timestamp := 3 }
          [{ id := "u1", credits := 1,
             projects := [{ name := "site", html := "<p></p>", timestamp := 3 }] }]).disk).result
      = .ok ⟨"Use alt text.", 0, true⟩ := by
  have h := suggest_cache_second_call
    { user_id := "u1", html_content := "<p></p>", timestamp := 3 }
    [{ id := "u1", credits := 1,
       projects := [{ name := "site", html := "<p></p>", timestamp := 3 }] }]
    { id := "u1", credits := 1,
      projects := [{ name := "site", html := "<p></p>", timestamp := 3 }] }
    { name := "site", html := "<p></p>", timestamp := 3 }
    "Use alt text."
    (by decide) (by decide) (by decide) (by decide) (by decide) (by decide)
  exact ⟨h.1, (h.2.2 (.error "down")).1⟩

/-- C5: `POST /users/{user_id}/projects` upserts exactly when the project
carries the reserved chat-history name: with such a name and an existing
chat project, the first chat project's html and timestamp are overwritten
in place and nothing is appended; under any other name the save appends
unconditionally (no condition on timestamps); and two successive saves
under the reserved name leave exactly one project with that name, holding
the latest html and timestamp. -/
theorem save_project_upsert_spec
    (user_id : String) (proj p1 p2 : Project) (store : List User) (u : User)
    (hu : storedUser store user_id = some u) :
    ((proj.name == CHAT_HISTORY_PROJECT_NAME) = true →
      ∀ e, u.projects.find? (fun q => q.name == CHAT_HISTORY_PROJECT_NAME) = some e →
      storedUser (save_project user_id proj store).disk user_id
        = some { u with projects := (updateFirst
            (fun q => q.name == CHAT_HISTORY_PROJECT_NAME)
            (fun q => { q with html := proj.html, timestamp := proj.timestamp })
            u.projects) } ∧
      (updateFirst (fun q => q.name == CHAT_HISTORY_PROJECT_NAME)
        (fun q => { q with html := proj.html, timestamp := proj.timestamp })
        u.projects).length = u.projects.length) ∧
    ((proj.name == CHAT_HISTORY_PROJECT_NAME) = false →
      storedUser (save_project user_id proj store).disk user_id
        = some { u with projects := u.projects ++ [proj] }) ∧
    ((p1.name == CHAT_HISTORY_PROJECT_NAME) = true →
      (p2.name == CHAT_HISTORY_PROJECT_NAME) = true →
      chatCount u ≤ 1 →
      (storedUser (save_project user_id p2
          (save_project user_id p1 store).disk).disk user_id).isSome = true ∧
      ∀ u2, storedUser (save_project user_id p2
            (save_project user_id p1 store).disk).disk user_id = some u2 →
        (u2.projects.filter (fun r => r.name == CHAT_HISTORY_PROJECT_NAME)).map
            (fun r => (r.html, r.timestamp))
          = [(p2.html, p2.timestamp)]) := by
  have hu' : store.find? (fun v => v.id == user_id) = some u := hu
  have hid := List.find?_some hu'
  refine ⟨?_, ?_, ?_⟩
  · intro hname e hfind
    have hdisk : (save_project user_id proj store).disk
        = updateFirst (fun v => v.id == user_id)
            (fun v => { v with projects := (updateFirst
              (fun q => q.name == CHAT_HISTORY_PROJECT_NAME)
              (fun q => { q with html := proj.html, timestamp := proj.timestamp })
              v.projects) }) store := by
      simp [save_project, hu', hname, hfind]
    refine ⟨?_, updateFirst_length _ _ _⟩
    rw [hdisk]
    exact find?_updateFirst hu' (by simpa using hid)
  · intro hname
    have hdisk : (save_project user_id proj store).disk
        = updateFirst (fun v => v.id == user_id)
            (fun v => { v with projects := v.projects ++ [proj] }) store := by
      simp [save_project, hu', hname]
    rw [hdisk]
    exact find?_updateFirst hu' (by simpa using hid)
  · intro h1 h2 hinv
    cases hfind : u.projects.find? (fun q => q.name == CHAT_HISTORY_PROJECT_NAME) with
    | none =>
      have hdisk1 : (save_project user_id p1 store).disk
          = updateFirst (fun v => v.id == user_id)
              (fun v => { v with projects := v.projects ++ [p1] }) store := by
        simp [save_project, hu', h1, hfind]
      have hu1 : (save_project user_id p1 store).disk.find?
            (fun v => v.id == user_id)
          = some { u with projects := u.projects ++ [p1] } := by
        rw [hdisk1]
        exact find?_updateFirst hu' (by simpa using hid)
      have hfilnil : u.projects.filter
          (fun q => q.name == CHAT_HISTORY_PROJECT_NAME) = [] := by
        rw [List.filter_eq_nil_iff]
        intro a ha
        have h3 := List.find?_eq_none.mp hfind a ha
        simpa using h3
      have hfind1 : (u.projects ++ [p1]).find?
            (fun q => q.name == CHAT_HISTORY_PROJECT_NAME) = some p1 := by
        rw [find?_append_of_none hfind]
        exact List.find?_cons_of_pos _ h1
      generalize hd1 : (save_project user_id p1 store).disk = d1 at hu1 ⊢
      have hdisk2 : (save_project user_id p2 d1).disk
          = updateFirst (fun v => v.id == user_id)
              (fun v => { v with projects := (updateFirst
                (fun q => q.name == CHAT_HISTORY_PROJECT_NAME)
                (fun q => { q with html := p2.html, timestamp := p2.timestamp })
                v.projects) }) d1 := by
        simp [save_project, hu1, h2, hfind1]
      have hu2 : (save_project user_id p2 d1).disk.find?
            (fun v => v.id == user_id)
          = some { u with projects := (updateFirst
              (fun q => q.name == CHAT_HISTORY_PROJECT_NAME)
              (fun q => { q with html := p2.html, timestamp := p2.timestamp })
              (u.projects ++ [p1])) } := by
        rw [hdisk2]
        exact find?_updateFirst hu1 (by simpa using hid)
      have hfil2 : ((updateFirst (fun q => q.name == CHAT_HISTORY_PROJECT_NAME)
            (fun q => { q with html := p2.html, timestamp := p2.timestamp })
            (u.projects ++ [p1])).filter
              (fun r => r.name == CHAT_HISTORY_PROJECT_NAME))
          = [{ p1 with html := p2.html, timestamp := p2.timestamp }] := by
        rw [filter_updateFirst_of_find? hfind1 (by simpa using h1)]
        rw [List.filter_append, hfilnil]
        simp [h1]
      constructor
      · simp [storedUser, hu2]
      · intro u2 hu2'
        unfold storedUser at hu2'
        rw [hu2] at hu2'
        injection hu2' with hh
        subst hh
        simp only [hfil2, List.map_cons, List.map_nil]
    | some e =>
      have hname_e := List.find?_some hfind
      have hdisk1 : (save_project user_id p1 store).disk
          = updateFirst (fun v => v.id == user_id)
              (fun v => { v with projects := (updateFirst
                (fun q => q.name == CHAT_HISTORY_PROJECT_NAME)
                (fun q => { q with html := p1.html, timestamp := p1.timestamp })
                v.projects) }) store := by
        simp [save_project, hu', h1, hfind]
      have hu1 : (save_project user_id p1 store).disk.find?
            (fun v => v.id == user_id)
          = some { u with projects := (updateFirst
              (fun q => q.name == CHAT_HISTORY_PROJECT_NAME)
              (fun q => { q with html := p1.html, timestamp := p1.timestamp })
              u.projects) } := by
        rw [hdisk1]
        exact find?_updateFirst hu' (by simpa using hid)
      have hfil1 : u.projects.filter
          (fun q => q.name == CHAT_HISTORY_PROJECT_NAME) = [e] :=
        filter_eq_singleton_of_find? hfind hinv
      have hfind1 : (updateFirst (fun q => q.name == CHAT_HISTORY_PROJECT_NAME)
            (fun q => { q with html := p1.html, timestamp := p1.timestamp })
            u.projects).find? (fun q => q.name == CHAT_HISTORY_PROJECT_NAME)
          = some { e with html := p1.html, timestamp := p1.timestamp } :=
        find?_updateFirst hfind (by simpa using hname_e)
      generalize hd1 : (save_project user_id p1 store).disk = d1 at hu1 ⊢
      have hdisk2 : (save_project user_id p2 d1).disk
          = updateFirst (fun v => v.id == user_id)
              (fun v => { v with projects := (updateFirst
                (fun q => q.name == CHAT_HISTORY_PROJECT_NAME)
                (fun q => { q with html := p2.html, timestamp := p2.timestamp })
                v.projects) }) d1 := by
        simp [save_project, hu1, h2, hfind1]
      have hu2 : (save_project user_id p2 d1).disk.find?
            (fun v => v.id == user_id)
          = some { u with projects := (updateFirst
              (fun q => q.name == CHAT_HISTORY_PROJECT_NAME)
              (fun q => { q with html := p2.html, timestamp := p2.timestamp })
              (updateFirst (fun q => q.name == CHAT_HISTORY_PROJECT_NAME)
                (fun q => { q with html := p1.html, timestamp := p1.timestamp })
                u.projects)) } := by
        rw [hdisk2]
        exact find?_updateFirst hu1 (by simpa using hid)
      have hfil2 : ((updateFirst (fun q => q.name == CHAT_HISTORY_PROJECT_NAME)
            (fun q => { q with html := p2.html, timestamp := p2.timestamp })
            (updateFirst (fun q => q.name == CHAT_HISTORY_PROJECT_NAME)
              (fun q => { q with html := p1.html, timestamp := p1.timestamp })
              u.projects)).filter
              (fun r => r.name == CHAT_HISTORY_PROJECT_NAME))
          = [{ e with html := p2.html, timestamp := p2.timestamp }] := by
        rw [filter_updateFirst_of_find? hfind1 (by simpa using hname_e)]
        have hfil1' : ((updateFirst (fun q => q.name == CHAT_HISTORY_PROJECT_NAME)
              (fun q => { q with html := p1.html, timestamp := p1.timestamp })
              u.projects).filter
              (fun q => q.name == CHAT_HISTORY_PROJECT_NAME))
            = [{ e with html := p1.html, timestamp := p1.timestamp }] := by
          rw [filter_updateFirst_of_find? hfind (by simpa using hname_e), hfil1]
          rfl
        rw [hfil1']
        rfl
      constructor
      · simp [storedUser, hu2]
      · intro u2 hu2'
        unfold storedUser at hu2'
        rw [hu2] at hu2'
        injection hu2' with hh
        subst hh
        simp only [hfil2, List.map_cons, List.map_nil]

/-- C5 witness: saving the reserved chat-history name twice onto a user
with no projects leaves exactly one project with that name, holding the
second save's html and timestamp; a non-reserved save appends even with a
duplicate timestamp. -/
theorem save_project_upsert_spec_witness :
    (∀ u2, storedUser (save_project "u1"
          { name := "__chat_history__", html := "B", timestamp := 2 }
          (save_project "u1"
            { name := "__chat_history__", html := "A", timestamp := 1 }
            [{ id := "u1", credits := 5, projects := [] }]).disk).disk "u1"
        = some u2 →
      (u2.projects.filter (fun r => r.name == CHAT_HISTORY_PROJECT_NAME)).map
          (fun r => (r.html, r.timestamp))
        = [("B", (2 : Int))]) ∧
    storedUser (save_project "u1" { name := "other", html := "C", timestamp := 1 }
        [{ id := "u1", credits := 5,
           projects := [{ name := "first", html := "D", timestamp := 1 }] }]).disk "u1"
      = some { id := "u1", credits := 5,
               projects := [{ name := "first", html := "D", timestamp := 1 },
                            { name := "other", html := "C", timestamp := 1 }] } := by
  constructor
  · exact ((save_project_upsert_spec "u1"
      { name := "x", html := "x", timestamp := 0 }
      { name := "__chat_history__", html := "A", timestamp := 1 }
      { name := "__chat_history__", html := "B", timestamp := 2 }
      [{ id := "u1", credits := 5, projects := [] }]
      { id := "u1", credits := 5, projects := [] }
      (by decide)).2.2 (by decide) (by decide) (by decide)).2
  · exact (save_project_upsert_spec "u1"
      { name := "other", html := "C", timestamp := 1 }
      { name := "p1", html := "x", timestamp := 0 }
      { name := "p2", html := "x", timestamp := 0 }
      [{ id := "u1", credits := 5,
         projects := [{ name := "first", html := "D", timestamp := 1 }] }]
      { id := "u1", credits := 5,
        projects := [{ name := "first", html := "D", timestamp := 1 }] }
      (by decide)).2.1 (by decide)

/-- C2 counterexample: the project-update handler copies the request body's
name onto the matched project, so renaming a second project to the reserved
chat-history name produces two chat-history projects for one user; the
update operation does not preserve the invariant. -/
theorem chat_invariant_update_counterexample :
    chatUnique [{ id := "u1", credits := 5,
                  projects := [{ name := "__chat_history__", html := "h", timestamp := 1 },
                               { name := "site", html := "s", timestamp := 2 }] }] ∧
    ¬ chatUnique (update_project_code "u1" 2
        { name := "__chat_history__", html := "s2", timestamp := 2 }
        [{ id := "u1", credits := 5,
           projects := [{ name := "__chat_history__", html := "h", timestamp := 1 },
                        { name := "site", html := "s", timestamp := 2 }] }]).disk := by
  constructor <;> decide

/-- C2 (amended): within each stored user at most one project holds the
reserved chat-history name, and this invariant is preserved by save,
delete, bulk delete, generate, suggest, publish and create-user; the
project-update operation preserves it only when the request body's name is
not the reserved chat-history name (otherwise it can rename a second
project to that name). -/
theorem chat_invariant_preservation :
    (∀ uid proj store, chatUnique store →
      chatUnique (save_project uid proj store).disk) ∧
    (∀ uid ts body store, chatUnique store →
      (body.name == CHAT_HISTORY_PROJECT_NAME) = false →
      chatUnique (update_project_code uid ts body store).disk) ∧
    (∀ uid ts store, chatUnique store →
      chatUnique (delete_project uid ts store).disk) ∧
    (∀ uid store, chatUnique store →
      chatUnique (delete_all_projects uid store).disk) ∧
    (∀ oracle request store, chatUnique store →
      chatUnique (generate_code oracle request store).disk) ∧
    (∀ oracle request store, chatUnique store →
      chatUnique (suggest_improvements oracle request store).disk) ∧
    (∀ config oracle uid ts content store, chatUnique store →
      chatUnique (publish_site config oracle uid ts content store).disk) ∧
    (∀ uid? cr? store, chatUnique store →
      chatUnique (create_user uid? cr? store).disk) :=
  ⟨fun uid proj _store h => chatUnique_save_project uid proj h,
   fun uid ts body _store h hn => chatUnique_update_project uid ts body h hn,
   fun uid ts _store h => chatUnique_delete_project uid ts h,
   fun uid _store h => chatUnique_delete_all uid h,
   fun oracle request _store h => chatUnique_generate oracle request h,
   fun oracle request _store h => chatUnique_suggest oracle request h,
   fun config oracle uid ts content _store h =>
     chatUnique_publish config oracle uid ts content h,
   fun uid? cr? _store h => chatUnique_create_user uid? cr? h⟩

/-- C2 witness: the preservation theorem applied at a concrete store for a
chat-history save (upsert) and a billable generation. -/
theorem chat_invariant_preservation_witness :
    chatUnique (save_project "u1"
        { name := "__chat_history__", html := "B", timestamp := 2 }
        [{ id := "u1", credits := 5,
           projects := [{ name := "__chat_history__", html := "A", timestamp := 1 }] }]).disk ∧
    chatUnique (generate_code ⟨.ok "v", .ok "<!DOCTYPE html>x"⟩
        { prompt := "p", user_id := "u1" }
        [{ id := "u1", credits := 5,
           projects := [{ name := "__chat_history__", html := "A", timestamp := 1 }] }]).disk := by
  constructor
  · exact chat_invariant_preservation.1 "u1"
      { name := "__chat_history__", html := "B", timestamp := 2 }
      [{ id := "u1", credits := 5,
         projects := [{ name := "__chat_history__", html := "A", timestamp := 1 }] }]
      (by decide)
  · exact chat_invariant_preservation.2.2.2.2.1
      ⟨.ok "v", .ok "<!DOCTYPE html>x"⟩
      { prompt := "p", user_id := "u1" }
      [{ id := "u1", credits := 5,
         projects := [{ name := "__chat_history__", html := "A", timestamp := 1 }] }]
      (by decide)

end Sitee
